import Mathlib

/-!
Shallow embedding of the libsteel peripheral register access layer
(RISC-V Steel MCU C headers: gpio.h, spi.h, mtimer section, uart.h in two
variants) and proofs about the properties its specification states.

Each memory-mapped controller is modelled as a record of register values
(natural numbers; every store truncates to the register width, `% 2^32`,
exactly where the C type system does).  Operations that only store to or
read from registers become pure state transformers; operations that poll a
hardware-driven register (SPI BUSY, UART READY) take the sequence of values
the hardware would return for the successive volatile reads as an explicit
oracle list, and return `none` when the oracle is exhausted before the
polled condition holds (the C code would still be spinning).  Such
operations also return the trace of register reads and stores they perform,
so that ordering properties of the spec can be stated about the trace.
-/

namespace LibSteel

/-- Modulus of a 32-bit machine word. -/
def U32 : Nat := 2 ^ 32

/-- Modulus of a 64-bit machine word. -/
def U64 : Nat := 2 ^ 64

/-! ## GPIO controller (src/libsteel/gpio.h) -/

/-- Register file of the GPIO controller: IN, OE, OUT, CLR, SET
(offsets 0x00..0x10). -/
structure GpioController where
  IN : Nat
  OE : Nat
  OUT : Nat
  CLR : Nat
  SET : Nat
deriving DecidableEq

/-- Names of the GPIO registers, used to record which register a store
targets. -/
inductive GpioReg where
  | rIN
  | rOE
  | rOUT
  | rCLR
  | rSET
deriving DecidableEq

/-- enum GpioLogicValue: LOW = 0. -/
def LOW : Nat := 0

/-- enum GpioLogicValue: HIGH = 1. -/
def HIGH : Nat := 1

/-- Embedding of `gpio_write(gpio, pin_id, value)`: stores `1 << pin_id` to
CLR when `value == LOW`, to SET when `value == HIGH`, and does nothing for
any other value.  Returns the list of register stores performed and the
post-state. -/
def gpio_write (gpio : GpioController) (pin_id value : Nat) :
    List (GpioReg × Nat) × GpioController :=
  if value = LOW then
    ([(GpioReg.rCLR, (1 <<< pin_id) % U32)],
      { gpio with CLR := (1 <<< pin_id) % U32 })
  else if value = HIGH then
    ([(GpioReg.rSET, (1 <<< pin_id) % U32)],
      { gpio with SET := (1 <<< pin_id) % U32 })
  else
    ([], gpio)

/-- Embedding of `gpio_set_group(gpio, bit_mask)`: a single store of the
mask to the SET register.  Returns the store trace and the post-state. -/
def gpio_set_group (gpio : GpioController) (bit_mask : Nat) :
    List (GpioReg × Nat) × GpioController :=
  ([(GpioReg.rSET, bit_mask % U32)], { gpio with SET := bit_mask % U32 })

/-- Modelled from the spec: the GPIO hardware's reaction to a store of
`mask` into the SET register is not part of the C library under src/ (it
lives in the hardware).  Per the spec, such a store sets to logic 1 exactly
the OUT bits flagged in `mask` and leaves every other OUT bit unchanged,
i.e. OUT becomes OUT OR mask. -/
def gpio_hw_apply_set (gpio : GpioController) (mask : Nat) : GpioController :=
  { gpio with OUT := gpio.OUT ||| mask }

/-! ## SPI controller (src/libsteel/spi.h) -/

/-- Register file of the SPI controller: CPOL, CPHA, CHIP_SELECT,
CLOCK_CONF, WDATA, RDATA, BUSY (offsets 0x00..0x18). -/
structure SpiController where
  CPOL : Nat
  CPHA : Nat
  CHIP_SELECT : Nat
  CLOCK_CONF : Nat
  WDATA : Nat
  RDATA : Nat
  BUSY : Nat
deriving DecidableEq

/-- Embedding of `spi_set_cpol(spi, cpol)` (cpol is a uint8_t): the store
happens only when `cpol <= 1`, otherwise the call is gracefully ignored. -/
def spi_set_cpol (spi : SpiController) (cpol : Nat) : SpiController :=
  if cpol ≤ 1 then { spi with CPOL := cpol } else spi

/-- Embedding of `spi_set_cpha(spi, cpha)` (cpha is a uint8_t): the store
happens only when `cpha <= 1`, otherwise the call is gracefully ignored. -/
def spi_set_cpha (spi : SpiController) (cpha : Nat) : SpiController :=
  if cpha ≤ 1 then { spi with CPHA := cpha } else spi

/-- Embedding of `spi_set_mode(spi, mode)`: switch over enum SpiMode
(MODE0 = CPOL0 CPHA0, MODE1 = CPOL0 CPHA1, MODE2 = CPOL1 CPHA0,
MODE3 = CPOL1 CPHA1); any other enumerant falls to the default branch and
does nothing.  Each case calls spi_set_cpol then spi_set_cpha. -/
def spi_set_mode (spi : SpiController) (mode : Nat) : SpiController :=
  if mode = 0 then spi_set_cpha (spi_set_cpol spi 0) 0
  else if mode = 1 then spi_set_cpha (spi_set_cpol spi 0) 1
  else if mode = 2 then spi_set_cpha (spi_set_cpol spi 1) 0
  else if mode = 3 then spi_set_cpha (spi_set_cpol spi 1) 1
  else spi

/-- Embedding of `spi_get_mode(spi)`: returns `(CPHA << 1) | CPOL`
(uint32 arithmetic). -/
def spi_get_mode (spi : SpiController) : Nat :=
  ((spi.CPHA <<< 1) % U32) ||| spi.CPOL

/-- Embedding of `spi_select(spi, peripheral_id)` (peripheral_id is a
uint8_t): stores the id into the 32-bit CHIP_SELECT register. -/
def spi_select (spi : SpiController) (peripheral_id : Nat) : SpiController :=
  { spi with CHIP_SELECT := peripheral_id % U32 }

/-- Embedding of `spi_deselect(spi)`: stores 0xffffffff into CHIP_SELECT. -/
def spi_deselect (spi : SpiController) : SpiController :=
  { spi with CHIP_SELECT := 0xffffffff }

/-- Embedding of `spi_get_cs(spi)`: reads CHIP_SELECT and truncates it to
the uint8_t return type. -/
def spi_get_cs (spi : SpiController) : Nat :=
  spi.CHIP_SELECT % 256

/-- Embedding of `spi_set_clock(spi, conf)`. -/
def spi_set_clock (spi : SpiController) (conf : Nat) : SpiController :=
  { spi with CLOCK_CONF := conf % U32 }

/-- Invariant of the SPI controller stated by the spec: the CPOL and CPHA
registers hold only 0 or 1. -/
def SpiCpolCphaInv (s : SpiController) : Prop :=
  (s.CPOL = 0 ∨ s.CPOL = 1) ∧ (s.CPHA = 0 ∨ s.CPHA = 1)

/-- Trace events of the SPI data-transfer functions: volatile reads of BUSY
and RDATA and stores to WDATA, in program order. -/
inductive SpiEvent where
  | readBUSY (v : Nat)
  | writeWDATA (v : Nat)
  | readRDATA (v : Nat)
deriving DecidableEq

/-- Embedding of `spi_wait_ready(spi)`: spin reading BUSY until a read
returns 0.  The oracle list gives the successive values the hardware
returns for the BUSY reads; the result is the trace of reads performed and
the unconsumed rest of the oracle, or `none` when the oracle runs out
before a zero is read (the C loop would still be spinning). -/
def spi_wait_ready : List Nat → Option (List SpiEvent × List Nat)
  | [] => none
  | b :: rest =>
    if b = 0 then some ([SpiEvent.readBUSY b], rest)
    else
      match spi_wait_ready rest with
      | none => none
      | some (tr, rem) => some (SpiEvent.readBUSY b :: tr, rem)

/-- Embedding of `spi_write(spi, wdata)` (wdata is a uint8_t): store wdata
to WDATA, then spi_wait_ready. -/
def spi_write (busyReads : List Nat) (wdata : Nat) :
    Option (List SpiEvent × List Nat) :=
  match spi_wait_ready busyReads with
  | none => none
  | some (tr, rem) => some (SpiEvent.writeWDATA wdata :: tr, rem)

/-- Embedding of `spi_transfer(spi, wdata)`: store wdata to WDATA,
spi_wait_ready, then read RDATA and return it truncated to the uint8_t
return type.  `rdata` is the oracle value the RDATA read returns. -/
def spi_transfer (busyReads : List Nat) (rdata : Nat) (wdata : Nat) :
    Option (List SpiEvent × List Nat × Nat) :=
  match spi_wait_ready busyReads with
  | none => none
  | some (tr, rem) =>
    some (SpiEvent.writeWDATA wdata :: (tr ++ [SpiEvent.readRDATA (rdata % 256)]),
      rem, rdata % 256)

/-! ## MTimer controller (mtimer section concatenated in src/libsteel/spi.h) -/

/-- Register file of the MTimer controller: CR, MTIMEL, MTIMEH, MTIMECMPL,
MTIMECMPH (offsets 0x00..0x10). -/
structure MTimerController where
  CR : Nat
  MTIMEL : Nat
  MTIMEH : Nat
  MTIMECMPL : Nat
  MTIMECMPH : Nat
deriving DecidableEq

/-- Embedding of `mtimer_get_counter(mtimer)` exactly as the C source
computes it: cnt_l = MTIMEL, cnt_h = MTIMEH widened to uint64, and the
returned value is `(cnt_h << 31) | cnt_l` (note the source shifts by 31,
not 32). -/
def mtimer_get_counter (m : MTimerController) : Nat :=
  ((m.MTIMEH <<< 31) % U64) ||| m.MTIMEL

/-- The specification's formula for the logical 64-bit counter value:
`(MTIMEH << 32) | MTIMEL`, in uint64 arithmetic.  Stated separately so it
can be compared with what the source returns. -/
def mtimer_counter_spec (m : MTimerController) : Nat :=
  ((m.MTIMEH <<< 32) % U64) ||| m.MTIMEL

/-- First store of `mtimer_set_compare`: MTIMECMPL = -1, i.e. all-ones in
the 32-bit register. -/
def mtimer_set_compare_w1 (m : MTimerController) : MTimerController :=
  { m with MTIMECMPL := U32 - 1 }

/-- Second store of `mtimer_set_compare`: MTIMECMPH = new_value >> 32
(truncated to the 32-bit register). -/
def mtimer_set_compare_w2 (m : MTimerController) (new_value : Nat) :
    MTimerController :=
  { m with MTIMECMPH := (new_value >>> 32) % U32 }

/-- Third store of `mtimer_set_compare`: MTIMECMPL = new_value & 0xFFFFFFFF. -/
def mtimer_set_compare_w3 (m : MTimerController) (new_value : Nat) :
    MTimerController :=
  { m with MTIMECMPL := new_value % U32 }

/-- Embedding of `mtimer_set_compare(mtimer, new_value)`: the three stores
in program order. -/
def mtimer_set_compare (m : MTimerController) (new_value : Nat) :
    MTimerController :=
  mtimer_set_compare_w3 (mtimer_set_compare_w2 (mtimer_set_compare_w1 m) new_value)
    new_value

/-- The composite 64-bit compare value `(MTIMECMPH << 32) | MTIMECMPL` the
hardware compares the counter against. -/
def mtimer_compare_composite (m : MTimerController) : Nat :=
  (m.MTIMECMPH <<< 32) ||| m.MTIMECMPL

/-! ## UART controller, first variant (src/unnamed/part_000) -/

/-- Trace events of the UART write path: volatile reads of READY and stores
to WDATA, in program order. -/
inductive UartEvent where
  | readREADY (v : Nat)
  | writeWDATA (v : Nat)
deriving DecidableEq

namespace Uart0

/-- Register file of the first UART variant: WDATA, RDATA, READY, RXSTATUS
(offsets 0x00..0x0c). -/
structure UartController where
  WDATA : Nat
  RDATA : Nat
  READY : Nat
  RXSTATUS : Nat
deriving DecidableEq

/-- Embedding of `uart_ready_to_send(uart)`: a READY read equals 1. -/
def uart_ready_to_send (ready : Nat) : Bool :=
  ready = 1

/-- Embedding of `uart_write(uart, data)` (data is a uint8_t): spin reading
READY until uart_ready_to_send holds, then store data to WDATA.  The oracle
list gives the values the hardware returns for the successive READY reads;
the result is the event trace and the unconsumed rest of the oracle, or
`none` when the oracle runs out before a 1 is read (the C loop would still
be spinning). -/
def uart_write : List Nat → Nat → Option (List UartEvent × List Nat)
  | [], _ => none
  | r :: rest, data =>
    if uart_ready_to_send r then
      some ([UartEvent.readREADY r, UartEvent.writeWDATA data], rest)
    else
      match uart_write rest data with
      | none => none
      | some (tr, rem) => some (UartEvent.readREADY r :: tr, rem)

/-- Embedding of `uart_write_string(uart, str)`: the string is the list of
bytes of the buffer `str` points to; the loop calls uart_write on each byte
until it reaches a null byte, which is not written.  A buffer with no null
byte makes the C code read past the string; that case is mapped to
`none`. -/
def uart_write_string : List Nat → List Nat → Option (List UartEvent × List Nat)
  | [], _ => none
  | c :: strRest, readys =>
    if c = 0 then some ([], readys)
    else
      match uart_write readys c with
      | none => none
      | some (tr, rem) =>
        match uart_write_string strRest rem with
        | none => none
        | some (tr2, rem2) => some (tr ++ tr2, rem2)

end Uart0

/-! ## UART controller, second variant (src/unnamed/part_001) -/

namespace Uart1

/-- Register file of the second UART variant: WDATA, RDATA, READY
(offsets 0x00..0x08; no RXSTATUS register). -/
structure UartController where
  WDATA : Nat
  RDATA : Nat
  READY : Nat
deriving DecidableEq

/-- Embedding of `uart_ready(uart)`: a READY read equals 1. -/
def uart_ready (ready : Nat) : Bool :=
  ready = 1

/-- Embedding of the second variant's `uart_write(uart, data)`: spin
reading READY until uart_ready holds, then store data to WDATA.  Oracle
convention as in the first variant. -/
def uart_write : List Nat → Nat → Option (List UartEvent × List Nat)
  | [], _ => none
  | r :: rest, data =>
    if uart_ready r then
      some ([UartEvent.readREADY r, UartEvent.writeWDATA data], rest)
    else
      match uart_write rest data with
      | none => none
      | some (tr, rem) => some (UartEvent.readREADY r :: tr, rem)

/-- Embedding of the second variant's `uart_write_string(uart, str)`. -/
def uart_write_string : List Nat → List Nat → Option (List UartEvent × List Nat)
  | [], _ => none
  | c :: strRest, readys =>
    if c = 0 then some ([], readys)
    else
      match uart_write readys c with
      | none => none
      | some (tr, rem) =>
        match uart_write_string strRest rem with
        | none => none
        | some (tr2, rem2) => some (tr ++ tr2, rem2)

end Uart1

/-- The WDATA stores of a UART event trace, in order. -/
def writesOf : List UartEvent → List Nat
  | [] => []
  | UartEvent.writeWDATA v :: rest => v :: writesOf rest
  | UartEvent.readREADY _ :: rest => writesOf rest

/-- Poll discipline of a UART event trace: every store to WDATA is
immediately preceded by a READY read that returned 1. -/
def polledOk : List UartEvent → Bool
  | [] => true
  | [UartEvent.readREADY _] => true
  | UartEvent.writeWDATA _ :: _ => false
  | UartEvent.readREADY r :: UartEvent.writeWDATA _ :: rest =>
      (r == 1) && polledOk rest
  | UartEvent.readREADY _ :: UartEvent.readREADY r :: rest =>
      polledOk (UartEvent.readREADY r :: rest)

/-! ## Helper lemmas -/

/-- When the low compare word is in range for its 32-bit register, the
composite compare value is ordinary positional arithmetic. -/
theorem composite_eq (m : MTimerController) (h : m.MTIMECMPL < U32) :
    mtimer_compare_composite m = U32 * m.MTIMECMPH + m.MTIMECMPL := by
  have h2 : m.MTIMECMPL < 2 ^ 32 := h
  unfold mtimer_compare_composite
  rw [Nat.shiftLeft_eq, Nat.mul_comm]
  exact (Nat.mul_add_lt_is_or h2 m.MTIMECMPH).symm

/-- Shape of a successful spi_wait_ready run: the oracle splits into a
prefix of nonzero BUSY values followed by a zero, the trace is exactly the
reads of that prefix plus the final zero read, and the rest of the oracle
is untouched. -/
theorem spi_wait_ready_shape (l : List Nat) (tr : List SpiEvent) (rem : List Nat)
    (h : spi_wait_ready l = some (tr, rem)) :
    ∃ pre : List Nat, l = pre ++ 0 :: rem ∧ (∀ v ∈ pre, v ≠ 0) ∧
      tr = pre.map SpiEvent.readBUSY ++ [SpiEvent.readBUSY 0] := by
  induction l generalizing tr rem with
  | nil => simp [spi_wait_ready] at h
  | cons b rest ih =>
    by_cases hb : b = 0
    · subst hb
      rw [spi_wait_ready] at h
      simp at h
      refine ⟨[], ?_, by simp, ?_⟩ <;> simp [h.1, h.2]
    · rw [spi_wait_ready] at h
      rw [if_neg hb] at h
      cases hw : spi_wait_ready rest with
      | none => rw [hw] at h; exact absurd h (by simp)
      | some p =>
        obtain ⟨tr1, rem1⟩ := p
        rw [hw] at h
        simp at h
        obtain ⟨h1, h2⟩ := h
        subst h2
        obtain ⟨pre, hl, hpre, htr⟩ := ih tr1 rem1 hw
        refine ⟨b :: pre, by simp [hl], ?_, ?_⟩
        · intro v hv
          rcases List.mem_cons.mp hv with rfl | hv2
          · exact hb
          · exact hpre v hv2
        · rw [← h1, htr]
          simp

/-- Shape of a successful uart_write run of the first UART variant: the
oracle splits into a prefix of READY reads different from 1 followed by a
read of 1, after which the data byte is stored to WDATA. -/
theorem uart0_write_shape (readys : List Nat) (data : Nat)
    (tr : List UartEvent) (rem : List Nat)
    (h : Uart0.uart_write readys data = some (tr, rem)) :
    ∃ pre : List Nat, readys = pre ++ 1 :: rem ∧ (∀ v ∈ pre, v ≠ 1) ∧
      tr = pre.map UartEvent.readREADY ++
        [UartEvent.readREADY 1, UartEvent.writeWDATA data] := by
  induction readys generalizing tr rem with
  | nil => simp [Uart0.uart_write] at h
  | cons r rest ih =>
    by_cases hr : r = 1
    · subst hr
      rw [Uart0.uart_write] at h
      simp [Uart0.uart_ready_to_send] at h
      refine ⟨[], ?_, by simp, ?_⟩ <;> simp [h.1, h.2]
    · rw [Uart0.uart_write] at h
      rw [if_neg (by simpa [Uart0.uart_ready_to_send] using hr)] at h
      cases hw : Uart0.uart_write rest data with
      | none => rw [hw] at h; exact absurd h (by simp)
      | some p =>
        obtain ⟨tr1, rem1⟩ := p
        rw [hw] at h
        simp at h
        obtain ⟨h1, h2⟩ := h
        subst h2
        obtain ⟨pre, hl, hpre, htr⟩ := ih tr1 rem1 hw
        refine ⟨r :: pre, by simp [hl], ?_, ?_⟩
        · intro v hv
          rcases List.mem_cons.mp hv with rfl | hv2
          · exact hr
          · exact hpre v hv2
        · rw [← h1, htr]
          simp

/-- writesOf distributes over trace concatenation. -/
theorem writesOf_append (a b : List UartEvent) :
    writesOf (a ++ b) = writesOf a ++ writesOf b := by
  induction a with
  | nil => simp [writesOf]
  | cons e rest ih =>
    cases e <;> simp [writesOf, ih]

/-- A trace of READY reads alone contains no WDATA store. -/
theorem writesOf_map_ready (pre : List Nat) :
    writesOf (pre.map UartEvent.readREADY) = [] := by
  induction pre with
  | nil => simp [writesOf]
  | cons p ps ih => simp [writesOf, ih]

/-- The poll discipline holds across a block of READY reads that ends in a
read of 1 immediately followed by a WDATA store. -/
theorem polledOk_ready_block (pre : List Nat) (d : Nat) (rest : List UartEvent) :
    polledOk (pre.map UartEvent.readREADY ++
      (UartEvent.readREADY 1 :: UartEvent.writeWDATA d :: rest)) = polledOk rest := by
  induction pre with
  | nil => simp [polledOk]
  | cons p ps ih =>
    cases ps with
    | nil => simp [polledOk]
    | cons q qs => simpa [polledOk] using ih

/-! ## Claims -/

/-- Claim C1, corrected.  For the three-store update sequence of
mtimer_set_compare with pre-state composite compare value C and new value
N: the composite value after the first store is never less than C, the
composite value after the second store is never less than N (the claim
stated "never less than C" there, which the counterexample claim_C1_cex
refutes), and after the third store the composite value equals exactly N.  -/
theorem claim_C1 (m : MTimerController) (n : Nat)
    (hL : m.MTIMECMPL < U32) (hn : n < U64) :
    mtimer_compare_composite m ≤ mtimer_compare_composite (mtimer_set_compare_w1 m) ∧
    n ≤ mtimer_compare_composite (mtimer_set_compare_w2 (mtimer_set_compare_w1 m) n) ∧
    mtimer_compare_composite (mtimer_set_compare m n) = n := by
  have h1 : (mtimer_set_compare_w1 m).MTIMECMPL < U32 := by
    simp [mtimer_set_compare_w1, U32]
  have h2 : (mtimer_set_compare_w2 (mtimer_set_compare_w1 m) n).MTIMECMPL < U32 := by
    simpa [mtimer_set_compare_w2] using h1
  have h3 : (mtimer_set_compare m n).MTIMECMPL < U32 := by
    simp [mtimer_set_compare, mtimer_set_compare_w3, U32]
    omega
  rw [composite_eq m hL, composite_eq _ h1, composite_eq _ h2, composite_eq _ h3]
  simp only [mtimer_set_compare, mtimer_set_compare_w1, mtimer_set_compare_w2,
    mtimer_set_compare_w3]
  rw [Nat.shiftRight_eq_div_pow]
  simp only [U32, U64] at *
  omega

/-- Counterexample to claim C1 as stated: with pre-update compare value
C = 2^32 (MTIMECMPH = 1, MTIMECMPL = 0) and new value N = 0, the composite
compare value observed after the second store (MTIMECMPH updated, MTIMECMPL
still all-ones) is 0xFFFFFFFF, which is strictly less than C. -/
theorem claim_C1_cex :
    mtimer_compare_composite
      (mtimer_set_compare_w2 (mtimer_set_compare_w1 (⟨0, 0, 0, 0, 1⟩ : MTimerController)) 0) <
    mtimer_compare_composite (⟨0, 0, 0, 0, 1⟩ : MTimerController) := by
  decide

/-- Witness for claim_C1 at the concrete pre-state with MTIMECMPH = 1 and
new value 5. -/
theorem claim_C1_witness :
    (⟨0, 0, 0, 0, 1⟩ : MTimerController).MTIMECMPL < U32 ∧ (5 : Nat) < U64 ∧
    (mtimer_compare_composite (⟨0, 0, 0, 0, 1⟩ : MTimerController) ≤
        mtimer_compare_composite (mtimer_set_compare_w1 (⟨0, 0, 0, 0, 1⟩ : MTimerController)) ∧
      5 ≤ mtimer_compare_composite
        (mtimer_set_compare_w2 (mtimer_set_compare_w1 (⟨0, 0, 0, 0, 1⟩ : MTimerController)) 5) ∧
      mtimer_compare_composite (mtimer_set_compare (⟨0, 0, 0, 0, 1⟩ : MTimerController) 5) = 5) :=
  ⟨by decide, by decide, claim_C1 _ 5 (by decide) (by decide)⟩

/-- Claim C2: the source of mtimer_get_counter shifts the high word by 31
bits instead of 32, contradicting its own description of MTIME as a 64-bit
register pair.  At the state MTIMEH = 1, MTIMEL = 0 the code returns 2^31
while the logical counter value (MTIMEH << 32) | MTIMEL is 2^32. -/
theorem claim_C2 :
    mtimer_get_counter (⟨0, 0, 1, 0, 0⟩ : MTimerController) = 2 ^ 31 ∧
    mtimer_counter_spec (⟨0, 0, 1, 0, 0⟩ : MTimerController) = 2 ^ 32 ∧
    mtimer_get_counter (⟨0, 0, 1, 0, 0⟩ : MTimerController) ≠
      mtimer_counter_spec (⟨0, 0, 1, 0, 0⟩ : MTimerController) := by
  refine ⟨by decide, by decide, by decide⟩

/-- Claim C3: spi_get_mode decodes (CPHA << 1) | CPOL while spi_set_mode
and the SpiMode enumeration encode CPOL as the high bit, so the round trip
returns 2 after set_mode(1) and 1 after set_mode(2); only modes 0 and 3
survive the round trip. -/
theorem claim_C3 :
    spi_get_mode (spi_set_mode (⟨0, 0, 0, 0, 0, 0, 0⟩ : SpiController) 1) = 2 ∧
    spi_get_mode (spi_set_mode (⟨0, 0, 0, 0, 0, 0, 0⟩ : SpiController) 2) = 1 ∧
    spi_get_mode (spi_set_mode (⟨0, 0, 0, 0, 0, 0, 0⟩ : SpiController) 0) = 0 ∧
    spi_get_mode (spi_set_mode (⟨0, 0, 0, 0, 0, 0, 0⟩ : SpiController) 3) = 3 := by
  refine ⟨by decide, by decide, by decide, by decide⟩

/-- Claim C4: a returning spi_write stored exactly its byte to WDATA as the
first event and then read BUSY, the last read returning 0 (the transfer is
complete on return); a returning spi_transfer behaves identically and
additionally returns the RDATA value read after readiness; and returning at
all requires a 0 among the BUSY reads. -/
theorem claim_C4 (busyReads : List Nat) (wdata rdata : Nat)
    (trW trT : List SpiEvent) (remW remT : List Nat) (ret : Nat)
    (hW : spi_write busyReads wdata = some (trW, remW))
    (hT : spi_transfer busyReads rdata wdata = some (trT, remT, ret)) :
    (∃ pre : List Nat, (∀ v ∈ pre, v ≠ 0) ∧
        trW = SpiEvent.writeWDATA wdata ::
          (pre.map SpiEvent.readBUSY ++ [SpiEvent.readBUSY 0])) ∧
    ret = rdata % 256 ∧
    (∃ pre : List Nat, (∀ v ∈ pre, v ≠ 0) ∧
        trT = SpiEvent.writeWDATA wdata :: (pre.map SpiEvent.readBUSY ++
          [SpiEvent.readBUSY 0, SpiEvent.readRDATA (rdata % 256)])) ∧
    0 ∈ busyReads := by
  rw [spi_write] at hW
  rw [spi_transfer] at hT
  cases hw : spi_wait_ready busyReads with
  | none => rw [hw] at hW; exact absurd hW (by simp)
  | some p =>
    obtain ⟨tr0, rem0⟩ := p
    rw [hw] at hW hT
    simp at hW hT
    obtain ⟨pre, hl, hpre, htr⟩ := spi_wait_ready_shape busyReads tr0 rem0 hw
    refine ⟨⟨pre, hpre, by rw [← hW.1, htr]⟩, hT.2.2.symm, ⟨pre, hpre, ?_⟩, ?_⟩
    · rw [← hT.1, htr]
      simp
    · rw [hl]
      simp

/-- Witness for claim_C4 with BUSY oracle [1, 0], written byte 7 and RDATA
oracle value 9. -/
theorem claim_C4_witness :
    (∃ pre : List Nat, (∀ v ∈ pre, v ≠ 0) ∧
        [SpiEvent.writeWDATA 7, SpiEvent.readBUSY 1, SpiEvent.readBUSY 0] =
          SpiEvent.writeWDATA 7 :: (pre.map SpiEvent.readBUSY ++ [SpiEvent.readBUSY 0])) ∧
    (9 : Nat) = 9 % 256 ∧
    (∃ pre : List Nat, (∀ v ∈ pre, v ≠ 0) ∧
        [SpiEvent.writeWDATA 7, SpiEvent.readBUSY 1, SpiEvent.readBUSY 0,
            SpiEvent.readRDATA 9] =
          SpiEvent.writeWDATA 7 :: (pre.map SpiEvent.readBUSY ++
            [SpiEvent.readBUSY 0, SpiEvent.readRDATA (9 % 256)])) ∧
    (0 : Nat) ∈ [1, 0] :=
  claim_C4 [1, 0] 7 9
    [SpiEvent.writeWDATA 7, SpiEvent.readBUSY 1, SpiEvent.readBUSY 0]
    [SpiEvent.writeWDATA 7, SpiEvent.readBUSY 1, SpiEvent.readBUSY 0, SpiEvent.readRDATA 9]
    [] [] 9 rfl rfl

/-- Claim C5: a returning uart_write_string of the first UART variant
writes to WDATA exactly the bytes of the string before the first null byte,
in order; every WDATA store in its trace is immediately preceded by a READY
read returning 1; and the null byte itself is never written. -/
theorem claim_C5 (str readys : List Nat) (tr : List UartEvent) (rem : List Nat)
    (h : Uart0.uart_write_string str readys = some (tr, rem)) :
    writesOf tr = str.takeWhile (fun c => c != 0) ∧
    polledOk tr = true ∧
    (0 : Nat) ∉ writesOf tr := by
  induction str generalizing readys tr rem with
  | nil => simp [Uart0.uart_write_string] at h
  | cons c strRest ih =>
    by_cases hc : c = 0
    · subst hc
      rw [Uart0.uart_write_string] at h
      simp at h
      simp [h.1, writesOf, polledOk]
    · rw [Uart0.uart_write_string] at h
      rw [if_neg hc] at h
      cases hw : Uart0.uart_write readys c with
      | none => rw [hw] at h; exact absurd h (by simp)
      | some p =>
        obtain ⟨tr1, rem1⟩ := p
        rw [hw] at h
        dsimp only at h
        cases hs : Uart0.uart_write_string strRest rem1 with
        | none => rw [hs] at h; exact absurd h (by simp)
        | some q =>
          obtain ⟨tr2, rem2⟩ := q
          rw [hs] at h
          simp at h
          obtain ⟨h1, h2⟩ := h
          obtain ⟨pre, hl, hpre, htr⟩ := uart0_write_shape readys c tr1 rem1 hw
          obtain ⟨ihw, ihp, ihn⟩ := ih rem1 tr2 rem2 hs
          constructor
          · rw [← h1, writesOf_append, htr, writesOf_append, writesOf_map_ready]
            simp [writesOf, ihw, List.takeWhile_cons, hc]
          constructor
          · rw [← h1, htr]
            rw [List.append_assoc]
            simpa [polledOk_ready_block] using ihp
          · rw [← h1, writesOf_append, htr, writesOf_append, writesOf_map_ready]
            simp [writesOf]
            exact ⟨fun h0 => hc h0.symm, ihn⟩

/-- Witness for claim_C5 on the string "AB" (bytes 65, 66, then the null
terminator) with READY oracle [1, 1]: exactly the two WDATA stores 65 then
66 are performed. -/
theorem claim_C5_witness :
    writesOf [UartEvent.readREADY 1, UartEvent.writeWDATA 65,
        UartEvent.readREADY 1, UartEvent.writeWDATA 66] = [65, 66] ∧
    polledOk [UartEvent.readREADY 1, UartEvent.writeWDATA 65,
        UartEvent.readREADY 1, UartEvent.writeWDATA 66] = true ∧
    (0 : Nat) ∉ writesOf [UartEvent.readREADY 1, UartEvent.writeWDATA 65,
        UartEvent.readREADY 1, UartEvent.writeWDATA 66] :=
  claim_C5 [65, 66, 0] [1, 1]
    [UartEvent.readREADY 1, UartEvent.writeWDATA 65,
      UartEvent.readREADY 1, UartEvent.writeWDATA 66] [] rfl

/-- Claim C6: gpio_set_group performs a single store, of the mask, to the
SET register, leaving IN, OE, OUT and CLR at their prior values; under the
spec-modelled hardware semantics of the SET register, exactly the OUT bits
flagged in the mask are driven to 1 and every OUT bit outside the mask, and
every other register, keeps its prior value. -/
theorem claim_C6 (g : GpioController) (mask : Nat) (hm : mask < U32) :
    gpio_set_group g mask = ([(GpioReg.rSET, mask)], { g with SET := mask }) ∧
    (gpio_hw_apply_set { g with SET := mask } mask).IN = g.IN ∧
    (gpio_hw_apply_set { g with SET := mask } mask).OE = g.OE ∧
    (gpio_hw_apply_set { g with SET := mask } mask).CLR = g.CLR ∧
    (∀ i, mask.testBit i = true →
      (gpio_hw_apply_set { g with SET := mask } mask).OUT.testBit i = true) ∧
    (∀ i, mask.testBit i = false →
      (gpio_hw_apply_set { g with SET := mask } mask).OUT.testBit i = g.OUT.testBit i) := by
  refine ⟨by simp [gpio_set_group, Nat.mod_eq_of_lt hm], rfl, rfl, rfl, ?_, ?_⟩
  · intro i hi
    simp [gpio_hw_apply_set, Nat.testBit_lor, hi]
  · intro i hi
    simp [gpio_hw_apply_set, Nat.testBit_lor, hi]

/-- Witness for claim_C6 with the sparse mask 0x10 on a controller whose
OUT register holds 3. -/
theorem claim_C6_witness :
    (16 : Nat) < U32 ∧
    (gpio_set_group (⟨0, 0, 3, 0, 0⟩ : GpioController) 16 =
        ([(GpioReg.rSET, 16)], (⟨0, 0, 3, 0, 16⟩ : GpioController)) ∧
      (gpio_hw_apply_set (⟨0, 0, 3, 0, 16⟩ : GpioController) 16).IN = 0 ∧
      (gpio_hw_apply_set (⟨0, 0, 3, 0, 16⟩ : GpioController) 16).OE = 0 ∧
      (gpio_hw_apply_set (⟨0, 0, 3, 0, 16⟩ : GpioController) 16).CLR = 0 ∧
      (∀ i, Nat.testBit 16 i = true →
        (gpio_hw_apply_set (⟨0, 0, 3, 0, 16⟩ : GpioController) 16).OUT.testBit i = true) ∧
      (∀ i, Nat.testBit 16 i = false →
        (gpio_hw_apply_set (⟨0, 0, 3, 0, 16⟩ : GpioController) 16).OUT.testBit i =
          Nat.testBit 3 i)) :=
  ⟨by decide, claim_C6 (⟨0, 0, 3, 0, 0⟩ : GpioController) 16 (by decide)⟩

/-- Claim C7: gpio_write issues a single store of 1 << pin_id to CLR when
the value is LOW, a single store of 1 << pin_id to SET when the value is
HIGH, and performs no store at all for any other value, leaving every
register unchanged. -/
theorem claim_C7 (g : GpioController) (pin_id value : Nat) (hp : pin_id < 32) :
    (value = LOW → gpio_write g pin_id value =
        ([(GpioReg.rCLR, 1 <<< pin_id)], { g with CLR := 1 <<< pin_id })) ∧
    (value = HIGH → gpio_write g pin_id value =
        ([(GpioReg.rSET, 1 <<< pin_id)], { g with SET := 1 <<< pin_id })) ∧
    (value ≠ LOW → value ≠ HIGH → gpio_write g pin_id value = ([], g)) := by
  have hlt : 1 <<< pin_id < U32 := by
    rw [Nat.shiftLeft_eq, one_mul]
    exact Nat.pow_lt_pow_right one_lt_two hp
  refine ⟨?_, ?_, ?_⟩
  · intro hv
    simp [gpio_write, hv, Nat.mod_eq_of_lt hlt]
  · intro hv
    simp [gpio_write, hv, HIGH, LOW, Nat.mod_eq_of_lt hlt]
  · intro h0 h1
    simp [gpio_write, h0, h1]

/-- Witness for claim_C7 on pin 4 with value LOW. -/
theorem claim_C7_witness :
    (4 : Nat) < 32 ∧
    (((0 : Nat) = LOW → gpio_write (⟨0, 0, 0, 0, 0⟩ : GpioController) 4 0 =
        ([(GpioReg.rCLR, 1 <<< 4)], (⟨0, 0, 0, 16, 0⟩ : GpioController))) ∧
      ((0 : Nat) = HIGH → gpio_write (⟨0, 0, 0, 0, 0⟩ : GpioController) 4 0 =
        ([(GpioReg.rSET, 1 <<< 4)], (⟨0, 0, 0, 0, 16⟩ : GpioController))) ∧
      ((0 : Nat) ≠ LOW → (0 : Nat) ≠ HIGH →
        gpio_write (⟨0, 0, 0, 0, 0⟩ : GpioController) 4 0 =
          ([], (⟨0, 0, 0, 0, 0⟩ : GpioController)))) :=
  ⟨by decide, claim_C7 (⟨0, 0, 0, 0, 0⟩ : GpioController) 4 0 (by decide)⟩

/-- Claim C8: the invariant that CPOL and CPHA each hold 0 or 1 is
preserved by spi_set_cpol and spi_set_cpha with any argument and by
spi_set_mode with any argument, and spi_set_cpol or spi_set_cpha with an
argument greater than 1 leaves the state entirely unchanged. -/
theorem claim_C8 (s : SpiController) (v mode : Nat) (h : SpiCpolCphaInv s) :
    SpiCpolCphaInv (spi_set_cpol s v) ∧
    SpiCpolCphaInv (spi_set_cpha s v) ∧
    SpiCpolCphaInv (spi_set_mode s mode) ∧
    (1 < v → spi_set_cpol s v = s ∧ spi_set_cpha s v = s) := by
  obtain ⟨h1, h2⟩ := h
  refine ⟨?_, ?_, ?_, ?_⟩
  · unfold spi_set_cpol SpiCpolCphaInv
    split_ifs with hv
    · exact ⟨show v = 0 ∨ v = 1 by omega, h2⟩
    · exact ⟨h1, h2⟩
  · unfold spi_set_cpha SpiCpolCphaInv
    split_ifs with hv
    · exact ⟨h1, show v = 0 ∨ v = 1 by omega⟩
    · exact ⟨h1, h2⟩
  · unfold spi_set_mode
    split_ifs <;> simp [spi_set_cpol, spi_set_cpha, SpiCpolCphaInv]
    exact ⟨h1, h2⟩
  · intro hv
    constructor
    · unfold spi_set_cpol
      rw [if_neg (by omega)]
    · unfold spi_set_cpha
      rw [if_neg (by omega)]

/-- Witness for claim_C8 at the state CPOL = 0, CPHA = 1 with argument 5
and mode 2. -/
theorem claim_C8_witness :
    SpiCpolCphaInv (⟨0, 1, 0, 0, 0, 0, 0⟩ : SpiController) ∧
    (SpiCpolCphaInv (spi_set_cpol (⟨0, 1, 0, 0, 0, 0, 0⟩ : SpiController) 5) ∧
      SpiCpolCphaInv (spi_set_cpha (⟨0, 1, 0, 0, 0, 0, 0⟩ : SpiController) 5) ∧
      SpiCpolCphaInv (spi_set_mode (⟨0, 1, 0, 0, 0, 0, 0⟩ : SpiController) 2) ∧
      (1 < 5 → spi_set_cpol (⟨0, 1, 0, 0, 0, 0, 0⟩ : SpiController) 5 =
          (⟨0, 1, 0, 0, 0, 0, 0⟩ : SpiController) ∧
        spi_set_cpha (⟨0, 1, 0, 0, 0, 0, 0⟩ : SpiController) 5 =
          (⟨0, 1, 0, 0, 0, 0, 0⟩ : SpiController))) :=
  ⟨⟨Or.inl rfl, Or.inr rfl⟩,
    claim_C8 (⟨0, 1, 0, 0, 0, 0, 0⟩ : SpiController) 5 2 ⟨Or.inl rfl, Or.inr rfl⟩⟩

/-- Claim C9: after spi_deselect, spi_get_cs returns 0xff (the register
holds 0xffffffff and the uint8_t return truncates it), and after
spi_select with any byte id, spi_get_cs returns that id. -/
theorem claim_C9 (s : SpiController) (id : Nat) (hid : id < 256) :
    spi_get_cs (spi_deselect s) = 0xff ∧ spi_get_cs (spi_select s id) = id := by
  constructor
  · norm_num [spi_get_cs, spi_deselect]
  · have h1 : id % U32 = id := Nat.mod_eq_of_lt (lt_trans hid (by norm_num [U32]))
    simp [spi_get_cs, spi_select, h1, Nat.mod_eq_of_lt hid]

/-- Witness for claim_C9 with peripheral id 3. -/
theorem claim_C9_witness :
    (3 : Nat) < 256 ∧
    (spi_get_cs (spi_deselect (⟨0, 0, 0, 0, 0, 0, 0⟩ : SpiController)) = 0xff ∧
      spi_get_cs (spi_select (⟨0, 0, 0, 0, 0, 0, 0⟩ : SpiController) 3) = 3) :=
  ⟨by decide, claim_C9 (⟨0, 0, 0, 0, 0, 0, 0⟩ : SpiController) 3 (by decide)⟩

/-- Claim C10: the uart_write and uart_write_string functions of the two
UART header variants are behaviorally equivalent: on the same READY oracle
and the same bytes they produce the same result, in particular the same
sequence of READY reads and WDATA stores. -/
theorem claim_C10 :
    (∀ readys data, Uart1.uart_write readys data = Uart0.uart_write readys data) ∧
    (∀ str readys, Uart1.uart_write_string str readys =
      Uart0.uart_write_string str readys) := by
  have hw : ∀ readys data, Uart1.uart_write readys data = Uart0.uart_write readys data := by
    intro readys data
    induction readys with
    | nil => rfl
    | cons r rest ih =>
      rw [Uart1.uart_write, Uart0.uart_write, Uart1.uart_ready, Uart0.uart_ready_to_send, ih]
  refine ⟨hw, ?_⟩
  intro str
  induction str with
  | nil => intro readys; rfl
  | cons c strRest ih =>
    intro readys
    rw [Uart1.uart_write_string, Uart0.uart_write_string, hw]
    by_cases hc : c = 0
    · simp [hc]
    · simp only [if_neg hc]
      cases Uart0.uart_write readys c with
      | none => rfl
      | some p =>
        obtain ⟨tr1, rem1⟩ := p
        simp only [ih rem1]

end LibSteel
